import Mathlib

set_option autoImplicit false
set_option maxHeartbeats 1000000
set_option maxRecDepth 8000

/-!
Verification development for the Gherkin rule-evaluation engine of
ifc-gherkin-rules.  The definitions below are a shallow embedding of the step
implementations in src/features/steps/steps.py and
src/features/steps/thens/relations.py.  The external model layer (entity
instances, the is_a type test and attribute access) is embedded as explicit
records; attribute access with a default mirrors getattr with a default
argument, and operations that can raise in Python return an Option, with none
standing for a propagated exception.
-/

namespace IfcRules

/-- Model entity: a node of the object graph, abstracted to its stable id and
the list of schema type names it satisfies (its own type together with every
ancestor type), which is how the external polymorphic is_a test consumes it. -/
structure MEntity where
  id : Nat
  types : List String
deriving DecidableEq

/-- Embedding of the external test entity.is_a(t). -/
def MEntity.isA (e : MEntity) (t : String) : Bool := e.types.contains t

/-- Embedding of fmt (steps.py 64-73) on a plain string rendering: a rendering
longer than 35 characters is truncated to its first 25 and last 7 characters
joined by an ellipsis. -/
def fmtStr (s : String) : String :=
  if s.length > 35 then (s.take 25) ++ "..." ++ (s.drop (s.length - 7)) else s

/-- Textual form of an entity as fmt sees it; the external str() rendering of an
instance is abstracted by its numeric id. -/
def fmtEnt (e : MEntity) : String := fmtStr ("#" ++ toString e.id)

/-! ### C10: the Given-step for the pattern An entity (steps.py 257-262) -/

/-- Embedding of the Given-step matching the pattern An entity: the external
lookup context.model.by_type may raise for a type name unknown to the schema,
modelled by an Option-valued lookup; the step catches every exception and falls
back to the empty selection. -/
def anEntityStep (byType : String → Option (List MEntity)) (entity : String) : List MEntity :=
  match byType entity with
  | some insts => insts
  | none => []

/-! ### C9: the Given-filter attribute = value (steps.py 328-333) -/

/-- Python literal values as produced by ast.literal_eval on the rule text. -/
inductive PyLit where
  | pbool (b : Bool)
  | pint (n : Int)
  | pstr (s : String)
  | pnone
deriving DecidableEq

/-- Embedding of Python equality on literal values: a bool compares equal to its
numeric value (True equals 1 and False equals 0), values of unrelated kinds
compare unequal. -/
def pyEq : PyLit → PyLit → Bool
  | .pbool a, .pbool b => a == b
  | .pbool a, .pint n => (if a then (1 : Int) else 0) == n
  | .pint n, .pbool a => n == (if a then (1 : Int) else 0)
  | .pint m, .pint n => m == n
  | .pstr s, .pstr t => s == t
  | .pnone, .pnone => true
  | _, _ => false

/-- Entity carrying literal-valued attributes, for the attribute-equality
filter; an absent attribute has no entry in the association list. -/
structure PEntity where
  id : Nat
  attrs : List (String × PyLit)
deriving DecidableEq

/-- Embedding of the Given-step for attribute = value: the selection is filtered
by comparing getattr(inst, attribute, True) with the parsed literal, so a
missing attribute contributes the default True to the comparison. -/
def attributeEqStep (instances : List PEntity) (attrName : String) (value : PyLit) :
    List PEntity :=
  instances.filter (fun inst => pyEq ((inst.attrs.lookup attrName).getD (.pbool true)) value)

/-- Concrete instance without any attributes, used for the C9 statements. -/
def pEntNoAttrs : PEntity := ⟨1, []⟩

/-! ### C7: stmt_to_op and the instance-count Then-step (steps.py 46-59, 115-124, 388-399) -/

/-- Embedding of str.replace for the fixed pattern is: every occurrence of the
two characters i s is removed, scanning left to right without overlap. -/
def removeIsChars : List Char → List Char
  | [] => []
  | [c] => [c]
  | a :: b :: rest =>
    if a = 'i' ∧ b = 's' then removeIsChars rest
    else a :: removeIsChars (b :: rest)

/-- Embedding of str.strip restricted to the space character, which is the only
whitespace the rule statements contain. -/
def stripSpaces (s : List Char) : List Char :=
  ((s.dropWhile (fun c => c = ' ')).reverse.dropWhile (fun c => c = ' ')).reverse

/-- The statement normalisation performed by stmt_to_op: remove every occurrence
of is, then strip surrounding spaces. -/
def normalizeStmt (statement : String) : String :=
  String.mk (stripSpaces (removeIsChars statement.data))

/-- Embedding of stmt_to_op (steps.py 46-59): the normalised statement selects a
comparison on counts; an unrecognised statement fails the assert, modelled as
none. -/
def stmt_to_op (statement : String) : Option (Nat → Nat → Bool) :=
  let s := normalizeStmt statement
  if s = "" then some (fun a b => a == b)
  else if s = "equal to" then some (fun a b => a == b)
  else if s = "exactly" then some (fun a b => a == b)
  else if s = "not" then some (fun a b => a != b)
  else if s = "at least" then some (fun a b => decide (b ≤ a))
  else if s = "more than" then some (fun a b => decide (b < a))
  else if s = "at most" then some (fun a b => decide (a ≤ b))
  else if s = "less than" then some (fun a b => decide (a < b))
  else none

/-- The instance_count_error record (steps.py 115-124). -/
structure InstanceCountErr where
  insts : List MEntity
  type_name : String
deriving DecidableEq

/-- Rendering of instance_count_error: with at least one instance the message
lists them, with none it is the fixed no-instances sentence. -/
def instanceCountErrStr (e : InstanceCountErr) : String :=
  if e.insts.length ≠ 0 then
    "The following " ++ toString e.insts.length ++ " instances of type " ++ e.type_name ++
      " were encountered: " ++ String.intercalate ";" (e.insts.map fmtEnt)
  else
    "No instances of type " ++ e.type_name ++ " were encountered"

/-- Embedding of the Then-step There must be constraint num instance(s) of
entity (steps.py 388-399): the operator is resolved before the applicability
guard (a failed assert aborts regardless of the guard, modelled as none), the
guard skips the count check entirely, and a count error is recorded exactly
when the comparison of the type-extent length against num fails. -/
def thereMustBeStep (applicable : Bool) (byTypeResult : List MEntity) (constraint : String)
    (num : Nat) (entity : String) : Option (List InstanceCountErr) :=
  match stmt_to_op constraint with
  | none => none
  | some op =>
    some (if applicable then
            (if !(op byTypeResult.length num) then [⟨byTypeResult, entity⟩] else [])
          else [])

/-! ### C1: containment directness (thens/relations.py 5-42) -/

/-- Spatial structure element as the containment check traverses it: its schema
type names and, in order, the RelatingObject parent of each of its Decomposes
relations (list element i models Decomposes[i].RelatingObject). -/
inductive Spatial where
  | mk (types : List String) (decomposes : List Spatial)

/-- Type names of a spatial element. -/
def Spatial.types : Spatial → List String
  | .mk t _ => t

/-- Decomposition parents of a spatial element. -/
def Spatial.decomposes : Spatial → List Spatial
  | .mk _ d => d

/-- Embedding of is_a on spatial elements. -/
def Spatial.isA (s : Spatial) (t : String) : Bool := s.types.contains t

/-- Embedding of the while loop of the containment check: repeatedly step to the
first Decomposes parent, record an indirect match on the first ancestor of the
requested type and stop there (first-match short-circuit, not exhaustive). -/
def ascendIndirect : Spatial → String → Bool
  | .mk _ [], _ => false
  | .mk _ (p :: _), other => if p.isA other then true else ascendIndirect p other

/-- Entity as the containment check consumes it: each element of
containedInStructure models the RelatingStructure of one containment
relation. -/
structure CEntity where
  id : Nat
  containedInStructure : List Spatial

/-- The set of directness values actually observed for an entity: directly when
the first containment relation relates a structure of the requested type,
indirectly when the decomposition ascent finds such an ancestor; with no
containment relation nothing is observed. -/
def observedDirectness (e : CEntity) (other : String) : Finset String :=
  match e.containedInStructure with
  | [] => ∅
  | r :: _ =>
    (if r.isA other then {"directly"} else ∅) ∪
      (if ascendIndirect r other then {"indirectly"} else ∅)

/-- The set of directness values the rule text requires: both values when the
rule says directly or indirectly in either order, else the single stated one. -/
def requiredDirectness (dir : String) : Finset String :=
  if dir = "directly or indirectly" ∨ dir = "indirectly or directly" then
    {"directly", "indirectly"}
  else {dir}

/-- The disagreement test of the containment check: truthiness of the
required-observed intersection compared against the must expectation. -/
def containmentMismatch (e : CEntity) (cond dir other : String) : Bool :=
  decide (requiredDirectness dir ∩ observedDirectness e other ≠ ∅) != decide (cond = "must")

/-- Outcome records of the containment check: the structural error carries the
offending entity with the condition and directness qualifiers it is rendered
with; the success record is produced under error_on_passed_rule. -/
inductive COutcome where
  | structureError (ent : CEntity) (condition : String) (directness : String)
  | ruleSuccess (ent : CEntity)

/-- Per-entity body of the containment check loop. -/
def perEntContainment (errOn : Bool) (cond dir other : String) (e : CEntity) : List COutcome :=
  if containmentMismatch e cond dir other then [.structureError e cond dir]
  else if errOn then [.ruleSuccess e] else []

/-- Embedding of the Then-step Each entity condition be directness contained in
other entity (thens/relations.py 5-42): the check runs only when the current
selection is nonempty and the context is applicable, and then visits every
instance of the target entity type. -/
def containmentStep (ctxInstances : List CEntity) (applicable : Bool) (ents : List CEntity)
    (cond dir other : String) (errOn : Bool) : List COutcome :=
  if !ctxInstances.isEmpty && applicable then
    ents.flatMap (perEntContainment errOn cond dir other)
  else []

/-- Concrete entity without containment relations, for the C1 witness. -/
def cEntFree : CEntity := ⟨0, []⟩

/-! ### C4: Then-steps and the applicable flag (steps.py 270-285, 388-399, 481-490) -/

/-- Entity with entity-valued attributes, as the attribute-type check reads
them. -/
structure TEntity where
  id : Nat
  types : List String
  attrs : List (String × MEntity)
deriving DecidableEq

/-- The attribute_type_error record (steps.py 143-154). -/
structure AttrTypeErr where
  inst : TEntity
  related : List MEntity
  attrName : String
  expected : String
deriving DecidableEq

/-- Rule context as the Then-checks see it: the applicable flag and the current
selection. -/
structure ThenCtx where
  applicable : Bool
  instances : List TEntity
deriving DecidableEq

/-- Error accumulation of the attribute-type check: an instance whose attribute
is missing makes the Python generator raise (is_a called on the list default),
modelled as none; otherwise an error is collected for every instance whose
attribute value fails the expected type test. -/
def attrTypeErrors : List TEntity → String → String → Option (List AttrTypeErr)
  | [], _, _ => some []
  | i :: rest, attrName, expected =>
    match i.attrs.lookup attrName with
    | none => none
    | some rel =>
      match attrTypeErrors rest attrName expected with
      | none => none
      | some es =>
        some ((if !(rel.isA expected) then [⟨i, [rel], attrName, expected⟩] else []) ++ es)

/-- Embedding of the Then-step The type of attribute should be expected type
(steps.py 481-490): it reads only the current selection of the context; the
applicable flag is never consulted. -/
def attrTypeStep (ctx : ThenCtx) (attrName expected : String) : Option (List AttrTypeErr) :=
  attrTypeErrors ctx.instances attrName expected

/-- Concrete attribute value of the wrong type, for the C4 counterexample. -/
def relC4 : MEntity := ⟨7, ["IfcLabel"]⟩

/-- Concrete instance whose Name attribute is relC4, for the C4 counterexample. -/
def instC4 : TEntity := ⟨3, ["IfcWall"], [("Name", relC4)]⟩

/-- Concrete context marked inapplicable but with a nonempty selection. -/
def ctxC4 : ThenCtx := ⟨false, [instC4]⟩

/-! ### C2: the relationship resolution step (steps.py 287-326) -/

/-- Relationship attribute value: a single entity or an aggregate of entities. -/
inductive AttrVal where
  | single (e : MEntity)
  | many (l : List MEntity)
deriving DecidableEq

/-- Embedding of make_aggregate (steps.py 309-312): a value that is not a list
or tuple is wrapped in a one-element list, an aggregate is kept as is. -/
def make_aggregate : AttrVal → List MEntity
  | .single e => [e]
  | .many l => l

/-- Relationship instance: its exact type name (rel.is_a()) and its attribute
values keyed by attribute name. -/
structure RelInst where
  typeName : String
  attrs : List (String × AttrVal)
deriving DecidableEq

/-- Resolution of one relationship instance against one selected instance (the
loop body of steps.py 301-321): the two lookup tables name the attribute
holding the entity role and the one holding the other-entity role, swapped when
the first direction is to; a missing table column or attribute raises, modelled
as none; the other-entity side is filtered by the expected type and both sides
become sets, modelled by dedup; a matched instance contributes itself, or with
a following-that tail the other-entity targets. -/
def resolvePair (inst : MEntity) (rel : RelInst) (relatingM relatedM : String → Option String)
    (dir1 : Bool) (other : String) (tail : Nat) : Option (List MEntity) :=
  let attrToEntityName := if dir1 then relatedM rel.typeName else relatingM rel.typeName
  let attrToOtherName := if dir1 then relatingM rel.typeName else relatedM rel.typeName
  match attrToEntityName, attrToOtherName with
  | some ae, some ao =>
    match rel.attrs.lookup ae, rel.attrs.lookup ao with
    | some ve, some vo =>
      let toEntity := (make_aggregate ve).dedup
      let toOther := ((make_aggregate vo).filter (fun i => i.isA other)).dedup
      some (if inst ∈ toEntity then (if tail ≠ 0 then toOther else [inst]) else [])
    | _, _ => none
  | _, _ => none

/-- Accumulation of resolvePair over all relationship instances for one
selected instance. -/
def resolveForInst (rels : List RelInst) (inst : MEntity)
    (relatingM relatedM : String → Option String) (dir1 : Bool) (other : String)
    (tail : Nat) : Option (List MEntity) :=
  match rels with
  | [] => some []
  | r :: rs =>
    match resolvePair inst r relatingM relatedM dir1 other tail,
        resolveForInst rs inst relatingM relatedM dir1 other tail with
    | some a, some b => some (a ++ b)
    | _, _ => none

/-- The resolved match list of the relationship step: contributions of every
selected instance against every relationship instance, in loop order. -/
def resolveAll (instances : List MEntity) (rels : List RelInst)
    (relatingM relatedM : String → Option String) (dir1 : Bool) (other : String)
    (tail : Nat) : Option (List MEntity) :=
  match instances with
  | [] => some []
  | i :: rest =>
    match resolveForInst rels i relatingM relatedM dir1 other tail,
        resolveAll rest rels relatingM relatedM dir1 other tail with
    | some a, some b => some (a ++ b)
    | _, _ => none

/-- The missing_relationship_error record (steps.py 156-162). -/
structure MissingRelErr where
  inst : MEntity
  relationship : String
deriving DecidableEq

/-- Result of the relationship step: the selection afterwards and the emitted
errors. -/
structure RelStepOut where
  instances : List MEntity
  errors : List MissingRelErr
deriving DecidableEq

/-- Embedding of the step A relationship from-to entities (steps.py 287-326): as
a Then clause the selection is left unchanged and one missing-relationship
error is emitted per originally selected instance not in the resolved match
set; as a Given clause the selection becomes the resolved matches and nothing
is emitted. -/
def relationshipStep (isThen : Bool) (instances : List MEntity) (rels : List RelInst)
    (relatingM relatedM : String → Option String) (dir1 : Bool) (other : String)
    (tail : Nat) (relName : String) : Option RelStepOut :=
  match resolveAll instances rels relatingM relatedM dir1 other tail with
  | none => none
  | some resolved =>
    if isThen then
      some ⟨instances,
        (instances.filter (fun i => decide (i ∉ resolved))).map (fun i => ⟨i, relName⟩)⟩
    else
      some ⟨resolved, []⟩

/-- Concrete element matched by the containment relationship, for the C2
witness. -/
def entA : MEntity := ⟨1, ["IfcWall"]⟩

/-- Concrete spatial target of the relationship, for the C2 witness. -/
def entB : MEntity := ⟨2, ["IfcSite"]⟩

/-- Concrete unmatched element, for the C2 witness. -/
def entC : MEntity := ⟨3, ["IfcWall"]⟩

/-- Concrete relationship instance relating entB to entA, for the C2 witness. -/
def relAB : RelInst :=
  ⟨"IfcRelContainedInSpatialStructure",
    [("RelatedElements", .many [entA]), ("RelatingStructure", .single entB)]⟩

/-- Concrete relating-side lookup row, for the C2 witness. -/
def relatingC2 : String → Option String := fun t =>
  if t = "IfcRelContainedInSpatialStructure" then some "RelatingStructure" else none

/-- Concrete related-side lookup row, for the C2 witness. -/
def relatedC2 : String → Option String := fun t =>
  if t = "IfcRelContainedInSpatialStructure" then some "RelatedElements" else none

/-! ### C5: the table-driven aggregation check (thens/relations.py 44-88) -/

/-- Modelled from the spec: one insertion step of the Type-Hierarchy Resolver
(utils.ifc.order_by_ifc_inheritance, whose code is not among the provided
sources); hier a b reads a is a proper subtype of b, and a candidate is placed
before the first element it derives from. -/
def insertDerived (hier : String → String → Bool) (x : String) : List String → List String
  | [] => [x]
  | y :: ys => if hier x y then x :: y :: ys else y :: insertDerived hier x ys

/-- Modelled from the spec: the Type-Hierarchy Resolver orders candidate type
names from most derived to most general (base classes last), here as an
insertion sort over the subtype relation. -/
def order_by_ifc_inheritance (hier : String → String → Bool) (ts : List String) : List String :=
  ts.foldr (insertDerived hier) []

/-- Relation read by the aggregation check: the value of the column-named
target attribute of one Decomposes relation (IFC aggregates are tuples, a
scalar value is wrapped by the check). -/
structure AggRel where
  targets : AttrVal
deriving DecidableEq

/-- Entity as the aggregation check consumes it: type names and its Decomposes
relations in order. -/
structure AggEnt where
  id : Nat
  types : List String
  decomposes : List AggRel
deriving DecidableEq

/-- Embedding of is_a on aggregation-check entities. -/
def AggEnt.isA (e : AggEnt) (t : String) : Bool := e.types.contains t

/-- Outcome records of the aggregation check: a structural error naming the
offending entity and the expected target types, or a per-instance success
record. -/
inductive AggOutcome where
  | structureError (ent : AggEnt) (expected : List String)
  | ruleSuccess (ent : AggEnt)
deriving DecidableEq

/-- The table-listed applicable entity types an instance is-a, in table key
order (thens/relations.py 58-61). -/
def applicableTypes (table : List (String × List String)) (ent : AggEnt) : List String :=
  (table.map Prod.fst).filter (fun t => ent.isA t)

/-- Per-instance body of the aggregation check (thens/relations.py 57-86): no
applicable table entry skips the instance silently; otherwise the most derived
applicable type is chosen, a missing relation is a structural error, every
relationship target not matching an allowed type adds a structural error, and
a fully matching nonempty target list adds a success record. -/
def aggPerInstance (hier : String → String → Bool) (table : List (String × List String))
    (ent : AggEnt) : List AggOutcome :=
  let ts := applicableTypes table ent
  if ts.isEmpty then []
  else
    let chosen := (order_by_ifc_inheritance hier ts).headD ""
    let expected := (table.lookup chosen).getD []
    match ent.decomposes with
    | [] => [.structureError ent expected]
    | rel :: _ =>
      let objs := make_aggregate rel.targets
      let bad := objs.filter (fun o => !(expected.any (fun t => o.isA t)))
      let allCorrect := !objs.isEmpty && bad.isEmpty
      (bad.map (fun _ => AggOutcome.structureError ent expected)) ++
        (if allCorrect then [AggOutcome.ruleSuccess ent] else [])

/-- Embedding of the Then-step It must be aggregated as per table: the loop over
the current instances, guarded by the applicable flag. -/
def aggregationStep (applicable : Bool) (hier : String → String → Bool)
    (table : List (String × List String)) (ents : List AggEnt) : List AggOutcome :=
  if applicable then ents.flatMap (aggPerInstance hier table) else []

/-- Concrete subtype relation with IfcRailway deriving from IfcFacility, for
the C5 witness. -/
def hierC5 : String → String → Bool := fun a b =>
  a = "IfcRailway" && b = "IfcFacility"

/-- Concrete aggregation table keyed by IfcFacility and IfcRailway, for the C5
witness. -/
def tableC5 : List (String × List String) :=
  [("IfcFacility", ["IfcSite"]), ("IfcRailway", ["IfcFacility"])]

/-- Concrete railway entity matching both table keys, for the C5 witness. -/
def entRailway : AggEnt := ⟨4, ["IfcRailway", "IfcFacility", "IfcSpatialStructureElement"], []⟩

/-- Concrete entity matching no table key, for the C5 witness. -/
def entUnlisted : AggEnt := ⟨5, ["IfcWindow"], []⟩

/-! ### C6: the inline-literal value check with an at-least count (steps.py 530-583) -/

/-- Values reachable through stacked projection layers: strings, None, tuples
of values, or entities of lower layers. -/
inductive PVal where
  | vstr (s : String)
  | vnone
  | tup (l : List PVal)
  | ent (id : Nat)

/-- Python membership of a stacked value in a list of strings: only an equal
string is a member. -/
def pvalIn (v : PVal) (values : List String) : Bool :=
  match v with
  | .vstr s => values.contains s
  | _ => false

/-- The attribute value of a stacked path (steps.py 571): the first component
of the newest layer value when that value is a tuple, the value itself
otherwise. -/
def attrValueOf (path : List PVal) : PVal :=
  match path with
  | [] => PVal.vnone
  | p :: _ =>
    match p with
    | .tup l => l.getD 0 PVal.vnone
    | v => v

/-- Outcome records of the inline value check: a per-path value error or the
count-shortfall error listing every evaluated path. -/
inductive VOutcome where
  | valueError (path : List PVal) (values : List String) (negative : Bool)
  | countError (paths : List (List PVal)) (values : List String) (numRequired : Nat)

/-- Embedding of the inline-literal branch of the value(s) Then-check
(steps.py 565-580): per index of the newest stacked layer, the two value-error
conditions additionally require num to be absent, and otherwise num_valid is
incremented; afterwards a count-shortfall error listing every path is appended
exactly when num is given and num_valid is below it.  Layers are index-aligned
per the selection-stack invariant; an out-of-range read is modelled as None. -/
def inlineValueCheck (stackTree : List (List PVal)) (values : List String)
    (num : Option Nat) (negative : Bool) : List VOutcome :=
  match stackTree with
  | [] => []
  | top :: rest =>
    let pathAt := fun (i : Nat) => (top :: rest).map (fun l => l.getD i PVal.vnone)
    let stepFn := fun (acc : List VOutcome × Nat) (i : Nat) =>
      let path := pathAt i
      let av := attrValueOf path
      if !(pvalIn av values) && num.isNone && !negative then
        (acc.1 ++ [VOutcome.valueError path values false], acc.2)
      else if pvalIn av values && num.isNone && negative then
        (acc.1 ++ [VOutcome.valueError path values true], acc.2)
      else
        (acc.1, acc.2 + 1)
    let res := (List.range top.length).foldl stepFn ([], 0)
    match num with
    | some k =>
      if res.2 < k then res.1 ++ [VOutcome.countError ((List.range top.length).map pathAt) values k]
      else res.1
    | none => res.1

/-- The quantity the claim speaks about: how many of the stacked attribute
values are members of the literal value set. -/
def claimMatchCount (stackTree : List (List PVal)) (values : List String) : Nat :=
  match stackTree with
  | [] => 0
  | top :: rest =>
    ((List.range top.length).filter (fun i =>
      pvalIn (attrValueOf ((top :: rest).map (fun l => l.getD i PVal.vnone))) values)).length

/-! ### C8: the a-list-of-only branch of the fragment check (steps.py 420-459, 126-131) -/

/-- Nesting relationship instance: its scalar RelatingObject and its
RelatedObjects aggregate. -/
structure NRel where
  relatingObject : MEntity
  relatedObjects : List MEntity
deriving DecidableEq

/-- Entity as the nesting fragment check consumes it: the values of its Nests
and IsNestedBy attributes. -/
structure NEntity where
  id : Nat
  types : List String
  nests : List NRel
  isNestedBy : List NRel
deriving DecidableEq

/-- Untyped positional argument of a Python dataclass construction. -/
inductive PyArg where
  | argStr (s : String)
  | argInst (e : NEntity)
  | argList (l : List MEntity)
deriving DecidableEq

/-- The instance_structure_error record with its fields as Python holds them. -/
structure ISERecord where
  related : PyArg
  relating : PyArg
  relationship_type : PyArg
deriving DecidableEq

/-- Construction of instance_structure_error (steps.py 126-131) from a
positional argument list: the dataclass has three required fields and an
optional fourth, so any other arity raises TypeError, modelled as none. -/
def instance_structure_error_apply (args : List PyArg) : Option ISERecord :=
  match args with
  | [a, b, c] => some ⟨a, b, c⟩
  | [a, b, c, _] => some ⟨a, b, c⟩
  | _ => none

/-- The related entities the fragment check collects (steps.py 441-444): for
must nest the scalar RelatingObject of every Nests relation, for is nested by
the RelatedObjects aggregates of the IsNestedBy relations, of which the tuple
coercion keeps only the first. -/
def relatedEntitiesOf (inst : NEntity) (relationshipType : String) : List MEntity :=
  if relationshipType = "must nest" then
    inst.nests.map (fun r => r.relatingObject)
  else
    match inst.isNestedBy.map (fun r => r.relatedObjects) with
    | [] => []
    | l :: _ => l

/-- The length of the nesting attribute list tested by the a-list-of-only
branch (steps.py 451). -/
def nestingAttrLen (inst : NEntity) (relationshipType : String) : Nat :=
  if relationshipType = "must nest" then inst.nests.length else inst.isNestedBy.length

/-- The error-log text of the fragment check. -/
def errorLogTxt (relationshipType : String) : String :=
  if relationshipType = "must nest" then "nesting" else "nested by"

/-- Per-instance body of the fragment Then-check (steps.py 440-456) after the
grammar has parsed the fragment into a relationship kind and a condition
keyword: an instance with no related entities is skipped; under only 1 more
than one matching entity is one error; under a list of only more than one
nesting relation attempts a one-argument record construction and otherwise
foreign members give one error; the unreachable plain-only branch is kept for
fidelity; a failed construction aborts the step, modelled as none. -/
def fragmentPerInst (inst : NEntity) (relationshipType condition otherEntity : String) :
    Option (List ISERecord) :=
  let rel := relatedEntitiesOf inst relationshipType
  if rel.length = 0 then some []
  else
    let falseElements := rel.filter (fun x => !(x.isA otherEntity))
    let correctElements := rel.filter (fun x => x.isA otherEntity)
    let txt := errorLogTxt relationshipType
    let e1 : Option (List ISERecord) :=
      if condition = "only 1" ∧ correctElements.length > 1 then
        (instance_structure_error_apply [.argInst inst, .argList correctElements,
          .argStr txt]).map (fun e => [e])
      else some []
    let e2 : Option (List ISERecord) :=
      if condition = "a list of only" then
        if nestingAttrLen inst relationshipType > 1 then
          (instance_structure_error_apply
            [.argStr (txt ++ " more than 1 list, including")]).map (fun e => [e])
        else if falseElements.length ≠ 0 then
          (instance_structure_error_apply [.argInst inst, .argList falseElements,
            .argStr (txt ++ " a list that includes")]).map (fun e => [e])
        else some []
      else some []
    let e3 : Option (List ISERecord) :=
      if condition = "only" ∧ falseElements.length ≠ 0 then
        (instance_structure_error_apply [.argInst inst, .argList correctElements,
          .argStr txt]).map (fun e => [e])
      else some []
    match e1, e2, e3 with
    | some a, some b, some c => some (a ++ b ++ c)
    | _, _, _ => none

/-- Concrete nested member in the first relation, for the C8 witness. -/
def memberY : MEntity := ⟨11, ["IfcDistributionPort"]⟩

/-- Concrete nested member in the second relation, for the C8 witness. -/
def memberZ : MEntity := ⟨12, ["IfcDistributionPort"]⟩

/-- Concrete instance with two IsNestedBy relations, for the C8 witness. -/
def instTwoLists : NEntity :=
  ⟨10, ["IfcFlowTerminal"], [],
    [⟨⟨10, ["IfcFlowTerminal"]⟩, [memberY]⟩, ⟨⟨10, ["IfcFlowTerminal"]⟩, [memberZ]⟩]⟩

/-! ### C3: the its-attribute step with and-return-to-first (steps.py 335-363) -/

/-- Stacked selection values: entities with attribute values, strings, numbers,
None, or nested sequences. -/
inductive SVal where
  | ent (id : Nat) (attrs : List (String × SVal))
  | vstr (s : String)
  | vnum (n : Int)
  | vnone
  | seq (l : List SVal)

/-- Embedding of getattr(i, attribute, None) on a stacked value: an entity
yields its attribute value or None, any non-entity value yields the None
default. -/
def getAttrS (attrName : String) : SVal → SVal
  | .ent _ attrs => (attrs.lookup attrName).getD .vnone
  | _ => .vnone

mutual
/-- Embedding of map_state (steps.py 335-339): a sequence value is mapped
element-wise, preserving nesting; any other value is passed to the function. -/
def mapState (f : SVal → SVal) : SVal → SVal
  | .seq l => .seq (mapStateList f l)
  | .ent i attrs => f (.ent i attrs)
  | .vstr s => f (.vstr s)
  | .vnum n => f (.vnum n)
  | .vnone => f .vnone

/-- Element-wise map_state over the members of a sequence, also used for the
top-level selection list. -/
def mapStateList (f : SVal → SVal) : List SVal → List SVal
  | [] => []
  | x :: xs => mapState f x :: mapStateList f xs
end

/-- Python truthiness of a stacked value. -/
def truthySVal : SVal → Bool
  | .ent _ _ => true
  | .vstr s => !(s.isEmpty)
  | .vnum n => !(n == 0)
  | .vnone => false
  | .seq l => !(l.isEmpty)

/-- Modelled from the spec: one layer of the Selection Stack (section 4.1); the
instances binding is absent in a freshly pushed layer. -/
structure Frame where
  instances : Option (List SVal)

/-- Modelled from the spec: the rule context with its Selection Stack, newest
layer first, and the applicable flag; reading the selection finds the newest
layer binding it, writing binds it in the newest layer, pushing opens an empty
layer. -/
structure BCtx where
  stack : List Frame
  applicable : Bool

/-- Push an empty layer. -/
def BCtx.push (c : BCtx) : BCtx := ⟨⟨none⟩ :: c.stack, c.applicable⟩

/-- Read the current selection: the newest bound instances value. -/
def BCtx.getInstances (c : BCtx) : List SVal :=
  (c.stack.findSome? Frame.instances).getD []

/-- Bind the selection in the newest layer. -/
def BCtx.setInstances (c : BCtx) (v : List SVal) : BCtx :=
  match c.stack with
  | [] => ⟨[⟨some v⟩], c.applicable⟩
  | _ :: rest => ⟨⟨some v⟩ :: rest, c.applicable⟩

/-- Set the applicable flag. -/
def BCtx.setApplicable (c : BCtx) (b : Bool) : BCtx := ⟨c.stack, b⟩

/-- The stack tree the steps read (steps.py 356 and 546): the bound instances
values of all layers, newest first, with unbound layers and falsy (empty)
values filtered out. -/
def stackTreeOf (c : BCtx) : List (List SVal) :=
  (c.stack.filterMap Frame.instances).filter (fun l => !l.isEmpty)

/-- Embedding of the Given-step Its attribute (steps.py 341-363): a layer is
pushed first; with tail and-following-that the projection is pushed and the
prior selection restored; with tail and-return-to-first the projection is
pushed and, when some projected value is truthy, the oldest stacked selection
becomes current again, else the selection is emptied and the context marked
inapplicable; with no tail the projection simply replaces the selection. -/
def itsAttributeStep (c : BCtx) (attrName : String) (tail : Nat) : BCtx :=
  let c1 := c.push
  if tail = 1 then
    let cur := c1.getInstances
    let c2 := c1.setInstances (mapStateList (getAttrS attrName) cur)
    let c3 := c2.push
    c3.setInstances cur
  else if tail = 2 then
    let c2 := c1.setInstances (mapStateList (getAttrS attrName) c1.getInstances)
    let c3 := c2.push
    let tree := stackTreeOf c3
    if !(c3.getInstances.any truthySVal) then
      (c3.setInstances []).setApplicable false
    else
      c3.setInstances (tree.getLastD [])
  else
    c1.setInstances (mapStateList (getAttrS attrName) c1.getInstances)

/-- Concrete wall entity with a Name attribute, for the C3 witness. -/
def svalWall : SVal := .ent 21 [("Name", .vstr "wall-a")]

/-- Concrete context with svalWall as the root selection, for the C3 witness. -/
def ctxC3 : BCtx := ⟨[⟨some [svalWall]⟩], true⟩

/-! ### Further Then-steps needed by C4: the nested-by count check (steps.py
401-416), the fragment-check loop (steps.py 437-459), the guarded value check
(steps.py 545), the edge-usage check (steps.py 186-233 and 270-285) and the
shape-representation check (steps.py 502-512). -/

/-- Embedding of the Then-step Each entity must be nested by constraint num
instance(s) of other entity (steps.py 401-416): the local operator table knows
exactly and at most only, anything else fails the assert before the guard,
modelled as none; when applicable, for every instance of the entity type the
nested entities of the matching type are counted and compared, a failed
comparison adding one structural error naming the matching entities. -/
def nestedByCountStep (applicable : Bool) (ents : List NEntity) (constraint : String)
    (num : Nat) (otherEntity : String) : Option (List ISERecord) :=
  let opOpt : Option (Nat → Nat → Bool) :=
    if constraint = "exactly" then some (fun a b => a == b)
    else if constraint = "at most" then some (fun a b => decide (a ≤ b))
    else none
  match opOpt with
  | none => none
  | some op =>
    some (if applicable then
      ents.flatMap (fun inst =>
        let nested := inst.isNestedBy.flatMap (fun r => r.relatedObjects)
        let matching := nested.filter (fun i => i.isA otherEntity)
        if !(op matching.length num) then
          [(⟨.argInst inst, .argList matching, .argStr "nested by"⟩ : ISERecord)]
        else [])
    else [])

/-- Accumulation of fragmentPerInst over the checked instances, aborting on a
failed record construction. -/
def fragmentErrorsAcc : List NEntity → String → String → String → Option (List ISERecord)
  | [], _, _, _ => some []
  | i :: rest, rt, cond, other =>
    match fragmentPerInst i rt cond other, fragmentErrorsAcc rest rt cond other with
    | some a, some b => some (a ++ b)
    | _, _ => none

/-- Embedding of the guarded loop of the fragment Then-step (steps.py 437-459),
with the fragment already parsed into a relationship kind and condition: when
the context is inapplicable the loop is skipped and nothing is emitted. -/
def fragmentStep (applicable : Bool) (ents : List NEntity)
    (relationshipType condition otherEntity : String) : Option (List ISERecord) :=
  if applicable then fragmentErrorsAcc ents relationshipType condition otherEntity
  else some []

/-- Embedding of the applicability guard of the value(s) Then-check (steps.py
545): with the flag False the whole body is skipped and no error is emitted. -/
def inlineValueStep (applicable : Bool) (stackTree : List (List PVal))
    (values : List String) (num : Option Nat) (negative : Bool) : List VOutcome :=
  if applicable then inlineValueCheck stackTree values num negative else []

/-- Coordinate tuple of the external geometry: its numeric components are
abstracted by integers; only structural equality of coordinates matters to the
edge extractor. -/
abbrev Coord := List Int

/-- Edge produced by the extractor: the unordered (frozenset) form is a set of
coordinates so that equal endpoints collapse, the oriented (tuple) form keeps
the order. -/
inductive GEdge where
  | unord (s : Finset Coord)
  | ord (a b : Coord)
deriving DecidableEq

/-- The edge constructor selected by the orientation mode (edge_type in
steps.py 187). -/
def edgeOf (oriented : Bool) (a b : Coord) : GEdge :=
  if oriented then .ord a b else .unord {a, b}

/-- Edges of one polygon loop: consecutive coordinate pairs with wrap-around
(steps.py 193-196 and 220-223). -/
def loopEdges (oriented : Bool) (loop : List Coord) : List GEdge :=
  match loop with
  | [] => []
  | c :: cs => ((c :: cs).zip (cs ++ [c])).map (fun p => edgeOf oriented p.1 p.2)

/-- Edge of one IfcOrientedEdge (steps.py 197-210): start and end vertex
coordinates, swapped when the orientation flag is false. -/
def orientedEdgeEdge (oriented : Bool) (oe : Coord × Coord × Bool) : GEdge :=
  if oe.2.2 then edgeOf oriented oe.1 oe.2.1 else edgeOf oriented oe.2.1 oe.1

/-- Edges of one triangle of a triangulated face set (steps.py 211-216): the
three one-based index pairs (0,1), (1,2), (2,0) resolved through the
coordinate list.  An out-of-range index is modelled by the empty coordinate;
the external files guarantee valid indices. -/
def triEdges (oriented : Bool) (coordList : List Coord) (idx : Nat × Nat × Nat) : List GEdge :=
  let c := fun (i : Nat) => coordList.getD (i - 1) []
  [edgeOf oriented (c idx.1) (c idx.2.1), edgeOf oriented (c idx.2.1) (c idx.2.2),
    edgeOf oriented (c idx.2.2) (c idx.1)]

/-- Edges of one polygonal-face loop of one-based indices (emit in steps.py
220-223). -/
def polyLoopEdges (oriented : Bool) (coordList : List Coord) (loop : List Nat) : List GEdge :=
  loopEdges oriented (loop.map (fun i => coordList.getD (i - 1) []))

/-- One face of a polygonal face set: its outer loop indices and, for a face
with voids, its inner loop index lists (steps.py 219-229). -/
structure PolyFace where
  coordIndex : List Nat
  innerIndices : List (List Nat)
deriving DecidableEq

/-- The geometric payload of an entity as get_edges dispatches on it: the
polygon loops and oriented edges reachable from a connected face set, the
coordinate and index lists of a triangulated or polygonal face set, or any
other kind. -/
inductive GeomData where
  | connectedFaceSet (loops : List (List Coord)) (orientedEdges : List (Coord × Coord × Bool))
  | triangulated (coordList : List Coord) (coordIndex : List (Nat × Nat × Nat))
  | polygonal (coordList : List Coord) (faces : List PolyFace)
  | otherKind (kind : String)
deriving DecidableEq

/-- Embedding of get_edges (steps.py 186-233) as the edge list in generation
order: loop edges then oriented edges for a connected face set, triangle edges
for a triangulated face set, outer then inner loop edges per face for a
polygonal face set; an unsupported kind raises NotImplementedError, modelled
as none. -/
def get_edges (oriented : Bool) (g : GeomData) : Option (List GEdge) :=
  match g with
  | .connectedFaceSet loops orientedEdges =>
    some ((loops.flatMap (loopEdges oriented)) ++ (orientedEdges.map (orientedEdgeEdge oriented)))
  | .triangulated coordList coordIndex =>
    some (coordIndex.flatMap (triEdges oriented coordList))
  | .polygonal coordList faces =>
    some (faces.flatMap (fun f =>
      polyLoopEdges oriented coordList f.coordIndex ++
        f.innerIndices.flatMap (polyLoopEdges oriented coordList)))
  | .otherKind _ => none

/-- Entity as the edge-usage check consumes it: its id and geometric payload. -/
structure GEntity where
  id : Nat
  geom : GeomData
deriving DecidableEq

/-- The edge_use_error record (steps.py 76-83). -/
structure EdgeUseErr where
  instId : Nat
  edge : GEdge
  count : Nat
deriving DecidableEq

/-- Rule context as the edge-usage check sees it. -/
structure GThenCtx where
  applicable : Bool
  instances : List GEntity
deriving DecidableEq

/-- Error accumulation of the edge-usage check (steps.py 276-283): per
instance, the Counter of generated edges is inspected and every distinct edge
whose reference count differs from the required one yields an error; an
unsupported geometry kind aborts, modelled as none. -/
def edgeUsageErrors : List GEntity → Bool → Nat → Option (List EdgeUseErr)
  | [], _, _ => some []
  | i :: rest, oriented, num =>
    match get_edges oriented i.geom with
    | none => none
    | some edges =>
      match edgeUsageErrors rest oriented num with
      | none => none
      | some es =>
        some (((edges.dedup.filter (fun e => edges.count e != num)).map
          (fun e => (⟨i.id, e, edges.count e⟩ : EdgeUseErr))) ++ es)

/-- Embedding of the Then-step Every edge must be referenced exactly num times
(steps.py 270-285): it reads only the current selection of the context; the
applicable flag is never consulted. -/
def edgeUsageStep (ctx : GThenCtx) (oriented : Bool) (num : Nat) : Option (List EdgeUseErr) :=
  edgeUsageErrors ctx.instances oriented num

/-- One shape representation of an entity: its identifier and type strings. -/
structure RepItem where
  identifier : String
  rtype : String
deriving DecidableEq

/-- Entity as the shape-representation count check consumes it: None when the
Representation attribute is unset, else the representation items. -/
structure REntity where
  id : Nat
  representation : Option (List RepItem)
deriving DecidableEq

/-- The representation_shape_error record (steps.py 164-170). -/
structure ShapeRepErr where
  instId : Nat
  representationId : String
deriving DecidableEq

/-- Rule context as the shape-representation check sees it. -/
structure RThenCtx where
  applicable : Bool
  instances : List REntity
deriving DecidableEq

/-- Embedding of the Then-step There must be one representation_id shape
representation (steps.py 502-512): it reads only the current selection (the
empty-selection guard is the loop itself); an instance with a Representation
whose identifiers miss the requested one yields an error; the applicable flag
is never consulted. -/
def shapeRepStep (ctx : RThenCtx) (representationId : String) : List ShapeRepErr :=
  ctx.instances.filterMap (fun inst =>
    match inst.representation with
    | none => none
    | some reps =>
      if (reps.map (fun r => r.identifier)).contains representationId then none
      else some ⟨inst.id, representationId⟩)

end IfcRules

namespace IfcRules

/-- The boolean mismatch test agrees with its claim-level reading: it is true
exactly when nonemptiness of the required-observed intersection disagrees with
the must expectation. -/
theorem containmentMismatch_iff (e : CEntity) (cond dir other : String) :
    containmentMismatch e cond dir other = true ↔
      ¬((requiredDirectness dir ∩ observedDirectness e other ≠ ∅) ↔ cond = "must") := by
  unfold containmentMismatch
  by_cases h1 : requiredDirectness dir ∩ observedDirectness e other ≠ ∅ <;>
    by_cases h2 : cond = "must" <;>
      simp [h1, h2]

/-- C10: the Given-step for the An entity pattern never propagates a lookup
failure: when by_type fails the current selection becomes the empty list, and
when it succeeds the selection is exactly the returned extent. -/
theorem C10_an_entity_never_raises (byType : String → Option (List MEntity)) (entity : String) :
    (byType entity = none → anEntityStep byType entity = []) ∧
    (∀ l, byType entity = some l → anEntityStep byType entity = l) := by
  constructor
  · intro h
    simp [anEntityStep, h]
  · intro l h
    simp [anEntityStep, h]

/-- Witness for C10 at a lookup that fails on the requested type name. -/
theorem C10_an_entity_never_raises_witness :
    anEntityStep (fun _ => none) "IfcBogus" = [] :=
  (C10_an_entity_never_raises (fun _ => none) "IfcBogus").1 rfl

/-- C9 counterexample: the parsed literal 1 is not the literal True, yet an
instance lacking the attribute is retained by the filter, because the default
True compares equal to 1 under Python equality. -/
theorem C9_counterexample :
    attributeEqStep [pEntNoAttrs] "Name" (.pint 1) = [pEntNoAttrs] ∧
    (PyLit.pint 1 ≠ PyLit.pbool true) := by
  constructor
  · rfl
  · decide

/-- C9 (amended): an instance lacking the named attribute is retained by the
attribute-equality filter exactly when the parsed literal compares equal to
True under Python equality - the literal True itself or a numeric literal of
value 1 - because the attribute lookup defaults to True when absent. -/
theorem C9_absent_attribute_retention (instances : List PEntity) (attrName : String)
    (value : PyLit) (e : PEntity) (hmem : e ∈ instances)
    (habs : e.attrs.lookup attrName = none) :
    e ∈ attributeEqStep instances attrName value ↔ pyEq (.pbool true) value = true := by
  simp [attributeEqStep, List.mem_filter, hmem, habs]

/-- Witness for C9 (amended) at a one-element selection and the literal True. -/
theorem C9_absent_attribute_retention_witness :
    pEntNoAttrs ∈ attributeEqStep [pEntNoAttrs] "Name" (.pbool true) :=
  (C9_absent_attribute_retention [pEntNoAttrs] "Name" (.pbool true) pEntNoAttrs
    (by simp) rfl).mpr rfl

/-- C7: with zero instances of IfcWall and the rule There must be at least 1
instance(s) of IfcWall evaluated with the applicable flag set, exactly one
instance-count error is produced and its rendered message is exactly the
no-instances sentence. -/
theorem C7_no_ifcwall_message :
    thereMustBeStep true [] "at least" 1 "IfcWall" = some [⟨[], "IfcWall"⟩] ∧
    instanceCountErrStr ⟨[], "IfcWall"⟩ = "No instances of type IfcWall were encountered" := by
  constructor
  · rfl
  · rfl

/-- C1: in the containment-directness check a structural error is recorded for
an entity exactly when nonemptiness of the intersection of required and
observed directness disagrees with the must / must-not expectation, and an
entity with zero containment relations observes no directness value at all,
whatever directness the rule requests. -/
theorem C1_containment_directness (ctxInstances ents : List CEntity)
    (cond dir other : String) (errOn : Bool)
    (hcond : cond = "must" ∨ cond = "must not")
    (hdir : dir = "directly" ∨ dir = "indirectly" ∨ dir = "directly or indirectly" ∨
      dir = "indirectly or directly")
    (hne : ctxInstances ≠ []) :
    (∀ e : CEntity,
        COutcome.structureError e cond dir ∈
            containmentStep ctxInstances true ents cond dir other errOn ↔
          (e ∈ ents ∧
            ¬((requiredDirectness dir ∩ observedDirectness e other ≠ ∅) ↔ cond = "must"))) ∧
    (∀ e : CEntity, e.containedInStructure = [] → observedDirectness e other = ∅) := by
  constructor
  · intro e
    have hemp : ctxInstances.isEmpty = false := by
      cases ctxInstances with
      | nil => exact absurd rfl hne
      | cons a l => rfl
    rw [containmentStep, hemp]
    simp only [Bool.not_false, Bool.true_and, if_pos]
    rw [List.mem_flatMap]
    constructor
    · rintro ⟨x, hx, hmem⟩
      by_cases hm : containmentMismatch x cond dir other
      · rw [perEntContainment, if_pos hm] at hmem
        rw [List.mem_singleton] at hmem
        obtain ⟨he, -, -⟩ := COutcome.structureError.inj hmem
        subst he
        exact ⟨hx, (containmentMismatch_iff e cond dir other).mp hm⟩
      · rw [perEntContainment, if_neg hm] at hmem
        by_cases herr : errOn <;> simp [herr] at hmem
    · rintro ⟨hmem, hmis⟩
      refine ⟨e, hmem, ?_⟩
      rw [perEntContainment, if_pos ((containmentMismatch_iff e cond dir other).mpr hmis)]
      exact List.mem_singleton_self _
  · intro e h
    simp [observedDirectness, h]

/-- Witness for C1: an entity with no containment relation under a must-directly
rule yields a structural error. -/
theorem C1_containment_directness_witness :
    COutcome.structureError cEntFree "must" "directly" ∈
      containmentStep [cEntFree] true [cEntFree] "must" "directly" "IfcBuildingStorey" false := by
  refine ((C1_containment_directness [cEntFree] [cEntFree] "must" "directly" "IfcBuildingStorey"
    false (Or.inl rfl) (Or.inl rfl) (by simp)).1 cEntFree).mpr ⟨by simp, ?_⟩
  intro hiff
  exact (hiff.mpr rfl) (by decide)

/-- C4 counterexample: with the applicable flag False the attribute-type check
still emits an error, so the inapplicability short-circuit does not hold
uniformly across the Then-step implementations. -/
theorem C4_counterexample :
    ctxC4.applicable = false ∧
    attrTypeStep ctxC4 "Name" "IfcText" = some [⟨instC4, [relC4], "Name", "IfcText"⟩] :=
  ⟨rfl, rfl⟩

/-- C4 (amended): when the applicable flag is False, the Then-checks that
consult it - the instance-count, nested-by-count, nesting-fragment,
aggregation, containment and value checks - produce an empty outcome list
(their operator asserts still run first), while the edge-usage, attribute-type
and shape-representation checks never consult the flag: their outcome is
independent of it, so they can still emit errors when it is False. -/
theorem C4_applicable_short_circuit (byTypeResult : List MEntity) (constraint : String)
    (num : Nat) (entity : String) (hop : (stmt_to_op constraint).isSome = true)
    (nents : List NEntity) (nconstraint : String) (nnum : Nat) (nother : String)
    (hnop : nconstraint = "exactly" ∨ nconstraint = "at most")
    (fents : List NEntity) (rt fcond fother : String)
    (hier : String → String → Bool) (table : List (String × List String)) (aents : List AggEnt)
    (ctxInstances ents : List CEntity) (cond dir other : String) (errOn : Bool)
    (stackTree : List (List PVal)) (values : List String) (vnum : Option Nat) (vneg : Bool)
    (ginsts : List GEntity) (goriented : Bool) (gnum : Nat) (ga gb : Bool)
    (tinsts : List TEntity) (tattr texp : String) (ta tb : Bool)
    (rinsts : List REntity) (rid : String) (ra rb : Bool) :
    thereMustBeStep false byTypeResult constraint num entity = some [] ∧
    nestedByCountStep false nents nconstraint nnum nother = some [] ∧
    fragmentStep false fents rt fcond fother = some [] ∧
    aggregationStep false hier table aents = [] ∧
    containmentStep ctxInstances false ents cond dir other errOn = [] ∧
    inlineValueStep false stackTree values vnum vneg = [] ∧
    edgeUsageStep ⟨ga, ginsts⟩ goriented gnum = edgeUsageStep ⟨gb, ginsts⟩ goriented gnum ∧
    attrTypeStep ⟨ta, tinsts⟩ tattr texp = attrTypeStep ⟨tb, tinsts⟩ tattr texp ∧
    shapeRepStep ⟨ra, rinsts⟩ rid = shapeRepStep ⟨rb, rinsts⟩ rid := by
  refine ⟨?_, ?_, rfl, rfl, ?_, rfl, rfl, rfl, rfl⟩
  · rcases h : stmt_to_op constraint with _ | op
    · rw [h] at hop
      simp at hop
    · simp [thereMustBeStep, h]
  · rcases hnop with h | h <;> subst h <;> rfl
  · simp [containmentStep]

/-- Witness for C4 (amended) at concrete operators, tables and contexts. -/
theorem C4_applicable_short_circuit_witness :
    thereMustBeStep false [] "at least" 1 "IfcWall" = some [] ∧
    nestedByCountStep false [instTwoLists] "exactly" 1 "IfcDistributionPort" = some [] := by
  have h := C4_applicable_short_circuit [] "at least" 1 "IfcWall" rfl
    [instTwoLists] "exactly" 1 "IfcDistributionPort" (Or.inl rfl)
    [instTwoLists] "is nested by" "only 1" "IfcDistributionPort"
    hierC5 tableC5 [entRailway]
    [cEntFree] [cEntFree] "must" "directly" "IfcSite" false
    [[PVal.vstr "A"]] ["C"] none false
    [] false 1 false true
    [instC4] "Name" "IfcText" false true
    [] "Body" false true
  exact ⟨h.1, h.2.1⟩

/-- C2: when resolution succeeds, the Then form of the relationship step keeps
the selection and emits a missing-relationship error exactly for each
originally selected instance absent from the resolved match set, the Given form
replaces the selection by the resolved matches and emits nothing, and
relationship-attribute values are normalised from scalar or aggregate shape to
a list before the set intersection. -/
theorem C2_relationship_resolution (instances : List MEntity) (rels : List RelInst)
    (relatingM relatedM : String → Option String) (dir1 : Bool) (other : String)
    (tail : Nat) (relName : String) (resolved resolvedT : List MEntity)
    (hres : resolveAll instances rels relatingM relatedM dir1 other 0 = some resolved)
    (hresT : resolveAll instances rels relatingM relatedM dir1 other tail = some resolvedT) :
    (relationshipStep true instances rels relatingM relatedM dir1 other 0 relName =
        some ⟨instances,
          (instances.filter (fun i => decide (i ∉ resolved))).map (fun i => ⟨i, relName⟩)⟩ ∧
      ∀ i : MEntity,
        (⟨i, relName⟩ : MissingRelErr) ∈
            (instances.filter (fun j => decide (j ∉ resolved))).map
              (fun j => (⟨j, relName⟩ : MissingRelErr)) ↔
          (i ∈ instances ∧ i ∉ resolved)) ∧
    (relationshipStep false instances rels relatingM relatedM dir1 other tail relName =
        some ⟨resolvedT, []⟩) ∧
    (∀ (e : MEntity) (l : List MEntity),
        make_aggregate (.single e) = [e] ∧ make_aggregate (.many l) = l) := by
  refine ⟨⟨?_, ?_⟩, ?_, ?_⟩
  · rw [relationshipStep, hres]
    rfl
  · intro i
    simp only [List.mem_map, List.mem_filter, MissingRelErr.mk.injEq, decide_eq_true_eq]
    constructor
    · rintro ⟨j, ⟨hj, hjr⟩, hji, -⟩
      subst hji
      exact ⟨hj, hjr⟩
    · rintro ⟨hi, hir⟩
      exact ⟨i, ⟨hi, hir⟩, rfl, trivial⟩
  · rw [relationshipStep, hresT]
    rfl
  · intro e l
    exact ⟨rfl, rfl⟩

/-- Witness for C2: with one relationship relating a spatial element to one of
two selected walls, the Given form with a following-that tail resolves to the
spatial target. -/
theorem C2_relationship_resolution_witness :
    relationshipStep false [entA, entC] [relAB] relatingC2 relatedC2 true "IfcSite" 1
      "IfcRelContainedInSpatialStructure" = some ⟨[entB], []⟩ :=
  ((C2_relationship_resolution [entA, entC] [relAB] relatingC2 relatedC2 true "IfcSite" 1
    "IfcRelContainedInSpatialStructure" [entA] [entB] (by decide) (by decide)).2).1

/-- Membership is preserved by one insertion step of the resolver. -/
theorem mem_insertDerived (hier : String → String → Bool) (x y : String) (l : List String) :
    y ∈ insertDerived hier x l ↔ y = x ∨ y ∈ l := by
  induction l with
  | nil => simp [insertDerived]
  | cons a l ih =>
    by_cases h : hier x a
    · simp only [insertDerived, h, if_pos, List.mem_cons]
    · simp only [insertDerived, h, Bool.false_eq_true, if_false, List.mem_cons, ih]
      tauto

/-- Membership is preserved by the resolver ordering. -/
theorem mem_order_by_ifc_inheritance (hier : String → String → Bool) (ts : List String)
    (y : String) : y ∈ order_by_ifc_inheritance hier ts ↔ y ∈ ts := by
  induction ts with
  | nil => simp [order_by_ifc_inheritance]
  | cons a ts ih =>
    have hstep : order_by_ifc_inheritance hier (a :: ts) =
        insertDerived hier a (order_by_ifc_inheritance hier ts) := rfl
    rw [hstep, mem_insertDerived, ih, List.mem_cons]

/-- Under a linear subtype relation on the candidates, the head of the resolver
ordering derives from every other candidate. -/
theorem order_head_most_derived (hier : String → String → Bool) (ts : List String)
    (htot : ∀ a ∈ ts, ∀ b ∈ ts, a ≠ b → hier a b = true ∨ hier b a = true)
    (htrans : ∀ a ∈ ts, ∀ b ∈ ts, ∀ c ∈ ts,
      hier a b = true → hier b c = true → hier a c = true) :
    ∀ h r, order_by_ifc_inheritance hier ts = h :: r → ∀ t ∈ ts, t = h ∨ hier h t = true := by
  induction ts with
  | nil =>
    intro h r hEq
    simp [order_by_ifc_inheritance] at hEq
  | cons a ts ih =>
    intro h r hEq t ht
    have htot2 : ∀ x ∈ ts, ∀ y ∈ ts, x ≠ y → hier x y = true ∨ hier y x = true :=
      fun x hx y hy => htot x (List.mem_cons_of_mem a hx) y (List.mem_cons_of_mem a hy)
    have htrans2 : ∀ x ∈ ts, ∀ y ∈ ts, ∀ z ∈ ts,
        hier x y = true → hier y z = true → hier x z = true :=
      fun x hx y hy z hz => htrans x (List.mem_cons_of_mem a hx) y (List.mem_cons_of_mem a hy)
        z (List.mem_cons_of_mem a hz)
    have hstep : order_by_ifc_inheritance hier (a :: ts) =
        insertDerived hier a (order_by_ifc_inheritance hier ts) := rfl
    rw [hstep] at hEq
    cases hsort : order_by_ifc_inheritance hier ts with
    | nil =>
      have hts : ts = [] := by
        cases hts2 : ts with
        | nil => rfl
        | cons b ts2 =>
          exfalso
          have hb : b ∈ order_by_ifc_inheritance hier ts := by
            rw [mem_order_by_ifc_inheritance, hts2]
            exact List.mem_cons_self b ts2
          rw [hsort] at hb
          simp at hb
      subst hts
      rw [hsort] at hEq
      simp only [insertDerived] at hEq
      obtain ⟨hha, -⟩ := List.cons.inj hEq
      subst hha
      rcases List.mem_cons.mp ht with hta | hts
      · exact Or.inl hta
      · simp at hts
    | cons hd tl =>
      rw [hsort] at hEq
      have hhd : hd ∈ ts := by
        have : hd ∈ order_by_ifc_inheritance hier ts := by
          rw [hsort]
          exact List.mem_cons_self hd tl
        rwa [mem_order_by_ifc_inheritance] at this
      have IH := ih htot2 htrans2 hd tl hsort
      by_cases hah : hier a hd = true
      · rw [insertDerived, if_pos hah] at hEq
        obtain ⟨hha, -⟩ := List.cons.inj hEq
        subst hha
        rcases List.mem_cons.mp ht with hta | hts
        · exact Or.inl hta
        · rcases IH t hts with hthd | hht
          · subst hthd
            exact Or.inr hah
          · exact Or.inr (htrans a (List.mem_cons_self a ts) hd
              (List.mem_cons_of_mem a hhd) t ht hah hht)
      · rw [insertDerived, if_neg (by simp [hah])] at hEq
        obtain ⟨hha, -⟩ := List.cons.inj hEq
        subst hha
        rcases List.mem_cons.mp ht with hta | hts
        · subst hta
          by_cases haeq : t = hd
          · exact Or.inl haeq
          · rcases htot t (List.mem_cons_self t ts) hd (List.mem_cons_of_mem t hhd) haeq with
              hx | hx
            · exact absurd hx hah
            · exact Or.inr hx
        · exact IH t hts

/-- C5: in the aggregation check an instance whose type matches no table key is
silently skipped with neither an error nor a success record, and when matching
keys exist the chosen type is the head of the inheritance ordering of those
keys, which under a linear subtype hierarchy on them is the most derived one. -/
theorem C5_aggregation_most_specific (hier : String → String → Bool)
    (table : List (String × List String)) (ent : AggEnt)
    (htot : ∀ a ∈ applicableTypes table ent, ∀ b ∈ applicableTypes table ent,
      a ≠ b → hier a b = true ∨ hier b a = true)
    (htrans : ∀ a ∈ applicableTypes table ent, ∀ b ∈ applicableTypes table ent,
      ∀ c ∈ applicableTypes table ent,
      hier a b = true → hier b c = true → hier a c = true) :
    (applicableTypes table ent = [] → aggPerInstance hier table ent = []) ∧
    (∀ h r, order_by_ifc_inheritance hier (applicableTypes table ent) = h :: r →
      (order_by_ifc_inheritance hier (applicableTypes table ent)).headD "" = h ∧
      h ∈ applicableTypes table ent ∧
      ∀ t ∈ applicableTypes table ent, t = h ∨ hier h t = true) := by
  constructor
  · intro hempty
    simp [aggPerInstance, hempty]
  · intro h r hEq
    refine ⟨by rw [hEq]; rfl, ?_, order_head_most_derived hier _ htot htrans h r hEq⟩
    have hmem : h ∈ order_by_ifc_inheritance hier (applicableTypes table ent) := by
      rw [hEq]
      exact List.mem_cons_self _ _
    exact (mem_order_by_ifc_inheritance hier _ h).mp hmem

/-- Witness for C5: the unlisted entity is skipped, and for the railway entity
the resolver picks IfcRailway, the most derived matching key. -/
theorem C5_aggregation_most_specific_witness :
    aggPerInstance hierC5 tableC5 entUnlisted = [] ∧
    (∀ t ∈ applicableTypes tableC5 entRailway,
      t = "IfcRailway" ∨ hierC5 "IfcRailway" t = true) := by
  constructor
  · exact (C5_aggregation_most_specific hierC5 tableC5 entUnlisted (by decide)
      (by decide)).1 (by decide)
  · exact ((C5_aggregation_most_specific hierC5 tableC5 entRailway (by decide)
      (by decide)).2 "IfcRailway" ["IfcFacility"] (by decide)).2.2

/-- C6: evaluated at a stacked selection of two values neither of which lies in
the literal set, with at least 1 match required, the check emits nothing even
though the number of set members among the values is zero and the claim
demands a count-shortfall error, because num_valid counts every path once num
is given. -/
theorem C6_count_shortfall_eval :
    inlineValueCheck [[PVal.vstr "A", PVal.vstr "B"]] ["C"] (some 1) false = [] ∧
    claimMatchCount [[PVal.vstr "A", PVal.vstr "B"]] ["C"] = 0 :=
  ⟨rfl, rfl⟩

/-- Computation form of the and-return-to-first branch: both outcomes written as
explicit contexts over the projected values. -/
theorem itsAttr2_unfold (c : BCtx) (attrName : String) :
    itsAttributeStep c attrName 2 =
      (if !((mapStateList (getAttrS attrName) c.getInstances).any truthySVal) then
        ⟨⟨some []⟩ :: ⟨some (mapStateList (getAttrS attrName) c.getInstances)⟩ :: c.stack,
          false⟩
      else
        ⟨⟨some (((((⟨some (mapStateList (getAttrS attrName) c.getInstances)⟩ : Frame) ::
              c.stack).filterMap Frame.instances).filter (fun l => !l.isEmpty)).getLastD [])⟩ ::
            ⟨some (mapStateList (getAttrS attrName) c.getInstances)⟩ :: c.stack,
          c.applicable⟩) := rfl

/-- The last surviving layer of the filtered stack tree is the oldest bound
nonempty one. -/
theorem filtered_tree_getLast (mid : List Frame) (orig : List SVal) (front : List SVal)
    (hne : orig ≠ []) :
    (((((⟨some front⟩ : Frame) :: (mid ++ [⟨some orig⟩])).filterMap Frame.instances).filter
      (fun l => !l.isEmpty)).getLastD []) = orig := by
  have hor : orig.isEmpty = false := by
    cases orig with
    | nil => exact absurd rfl hne
    | cons a l => rfl
  have hsing : List.filter (fun l => !l.isEmpty) [orig] = [orig] := by
    simp [List.filter_cons, hor]
  have hshape : ((((⟨some front⟩ : Frame) :: (mid ++ [⟨some orig⟩])).filterMap
        Frame.instances).filter (fun l => !l.isEmpty)) =
      ((front :: mid.filterMap Frame.instances).filter (fun l => !l.isEmpty)) ++ [orig] := by
    rw [List.filterMap_cons]
    simp only [List.filterMap_append]
    rw [show ([(⟨some orig⟩ : Frame)].filterMap Frame.instances) = [orig] from rfl]
    rw [← List.cons_append, List.filter_append, hsing]
  rw [hshape, List.getLastD_eq_getLast?, List.getLast?_concat]
  rfl

/-- C3: after the and-return-to-first projection is pushed, when some projected
value is truthy the selection becomes the oldest stacked layer - the original
top-level instances - and otherwise the selection is emptied and the
applicable flag cleared. -/
theorem C3_return_to_first (c : BCtx) (attrName : String) (orig : List SVal)
    (mid : List Frame) (hstack : c.stack = mid ++ [⟨some orig⟩]) (hne : orig ≠ []) :
    ((mapStateList (getAttrS attrName) c.getInstances).any truthySVal = true →
      (itsAttributeStep c attrName 2).getInstances = orig) ∧
    ((mapStateList (getAttrS attrName) c.getInstances).any truthySVal = false →
      (itsAttributeStep c attrName 2).getInstances = [] ∧
      (itsAttributeStep c attrName 2).applicable = false) := by
  constructor
  · intro htruthy
    rw [itsAttr2_unfold, htruthy]
    show (((((⟨some (mapStateList (getAttrS attrName) c.getInstances)⟩ : Frame) ::
        c.stack).filterMap Frame.instances).filter (fun l => !l.isEmpty)).getLastD []) = orig
    rw [hstack]
    exact filtered_tree_getLast mid orig _ hne
  · intro hfalse
    rw [itsAttr2_unfold, hfalse]
    exact ⟨rfl, rfl⟩

/-- Witness for C3: a root selection of one named wall is restored after the
projection of its truthy Name. -/
theorem C3_return_to_first_witness :
    (itsAttributeStep ctxC3 "Name" 2).getInstances = [svalWall] :=
  (C3_return_to_first ctxC3 "Name" [svalWall] [] rfl (by simp)).1 rfl

end IfcRules
